import Mathlib

/-!
Shallow embedding of the focus-navigation core of `main.py`
(meeting_cost_clock): the `MyButton` widget, the `ClockApp` state built in
`on_mount`, and the operations `change_button_focus` (arrow-key navigation
over the 2-D button grid), `action_enter` and `MyButton.interact`
(activation).

Python lists are modelled as Lean lists; Python `int` as `Int`; Python list
indexing (which accepts negative indices by wrapping and raises `IndexError`
out of range) as `Option`-valued access; an operation that raises an uncaught
exception is modelled as returning `none`.
-/

namespace MeetingCostClock

/-- Widget model for `MyButton` (main.py lines 28-60): a mutable reactive
`in_focus` flag, the panel text, and an optional callback with optionally
bound positional arguments.  Callbacks are modelled abstractly by name
(`watch_status` in the app); arguments are the strings the app binds. -/
structure MyButton where
  text : String
  callback : Option String
  args : Option (List String)
  in_focus : Bool
deriving DecidableEq

/-- Default used only to totalise `getD`-style accessors in statements. -/
def defaultButton : MyButton :=
  { text := "", callback := none, args := none, in_focus := false }

/-- One recorded callback invocation: the callback's name and the positional
arguments it is applied to (`callback()` records `(cb, [])`,
`callback(*args)` records `(cb, args)`). -/
def Call := String × List String
deriving instance DecidableEq for Call

/-- Direction argument of `change_button_focus`.  The Python parameter is
annotated `Directions` but nothing enforces that, and the function has an
explicit `else` branch for any other value; `other s` models a malformed
argument whose textual representation is `s`. -/
inductive Direction where
  | up
  | down
  | left
  | right
  | other (txt : String)
deriving DecidableEq

/-- True on the four members of the `Directions` enum, false on a malformed
argument. -/
def Direction.isDirectional : Direction → Bool
  | .other _ => false
  | _ => true

/-- Python list-index resolution: an index `i` into a list of length `n` is
valid if `0 <= i < n`, or wraps if `-n <= i < 0`; otherwise `IndexError`. -/
def pyIdx? (n : Nat) (i : Int) : Option Nat :=
  if 0 ≤ i ∧ i < (n : Int) then some i.toNat
  else if -(n : Int) ≤ i ∧ i < 0 then some (i + (n : Int)).toNat
  else none

/-- Python `l[i]` (read), `none` = `IndexError`. -/
def pyGet? {α : Type} (l : List α) (i : Int) : Option α :=
  (pyIdx? l.length i).bind fun k => l.get? k

/-- Python `l[i] = a` (write), `none` = `IndexError`. -/
def pySet? {α : Type} (l : List α) (i : Int) (a : α) : Option (List α) :=
  (pyIdx? l.length i).map fun k => l.set k a

/-- The navigation-relevant state of `ClockApp`: the button grid
`_buttons` (a list of columns, each a list of buttons), the focus
coordinates `_focus_index_x` / `_focus_index_y`, and the reactive `status`
string. -/
structure ClockApp where
  buttons : List (List MyButton)
  focus_index_x : Int
  focus_index_y : Int
  status : String
deriving DecidableEq

/-- Number of rows in column `x`: `len(self._buttons[x])`, with 0 when the
column index itself is out of range (the Python code would raise there; the
claims only use this at valid `x`). -/
def rowsIn (buttons : List (List MyButton)) (x : Int) : Int :=
  (((pyGet? buttons x).getD []).length : Int)

/-- The spec's Focus Position invariant: `0 <= x < columns` and
`0 <= y < rows_in_column(x)`. -/
def validPos (s : ClockApp) : Prop :=
  0 ≤ s.focus_index_x ∧ s.focus_index_x < (s.buttons.length : Int) ∧
    0 ≤ s.focus_index_y ∧ s.focus_index_y < rowsIn s.buttons s.focus_index_x

instance (s : ClockApp) : Decidable (validPos s) := by
  unfold validPos; infer_instance

/-- The new focus coordinates (and the possibly updated `status`) computed by
the branch cascade of `change_button_focus` (main.py lines 140-169):

* `UP`: `if y <= 0: 0 else: y - 1`;
* `DOWN`: reads `len(self._buttons[x])` (can raise if `x` is invalid), then
  `if y >= len - 1: len - 1 else: y + 1`;
* `LEFT`: `if x <= 0: 0 else: x - 1`;
* `RIGHT`: `if x <= len(self._buttons) - 1: len(self._buttons) - 1
  else: x + 1`;
* any other value: sets `status` to the error f-string and resets to
  `(0, 0)`. -/
def new_focus (s : ClockApp) (direction : Direction) : Option (Int × Int × String) :=
  match direction with
  | Direction.up =>
      some (s.focus_index_x,
        (if s.focus_index_y ≤ 0 then 0 else s.focus_index_y - 1),
        s.status)
  | Direction.down =>
      (pyGet? s.buttons s.focus_index_x).bind fun col =>
        some (s.focus_index_x,
          (if s.focus_index_y ≥ (col.length : Int) - 1 then (col.length : Int) - 1
           else s.focus_index_y + 1),
          s.status)
  | Direction.left =>
      some ((if s.focus_index_x ≤ 0 then 0 else s.focus_index_x - 1),
        s.focus_index_y,
        s.status)
  | Direction.right =>
      some ((if s.focus_index_x ≤ (s.buttons.length : Int) - 1 then (s.buttons.length : Int) - 1
             else s.focus_index_x + 1),
        s.focus_index_y,
        s.status)
  | Direction.other txt =>
      some (0, 0, "ERROR: Undefined direction=" ++ txt)

/-- Python `self._buttons[i][j].in_focus = v`: reads column `i`, reads button
`j`, writes the updated button back.  `none` = `IndexError`. -/
def setFocusAt (buttons : List (List MyButton)) (i j : Int) (v : Bool) :
    Option (List (List MyButton)) :=
  (pyGet? buttons i).bind fun col =>
    (pyGet? col j).bind fun b =>
      (pySet? col j { b with in_focus := v }).bind fun col2 =>
        pySet? buttons i col2

/-- Embedding of `ClockApp.change_button_focus` (main.py lines 137-174):
remember the previous coordinates, compute the new ones by the branch
cascade, clear `in_focus` at the previous coordinates, set it at the new
ones, and store the new coordinates.  `none` models an uncaught
`IndexError`. -/
def change_button_focus (s : ClockApp) (direction : Direction) : Option ClockApp :=
  let previous_index_x := s.focus_index_x
  let previous_index_y := s.focus_index_y
  (new_focus s direction).bind fun nf =>
    (setFocusAt s.buttons previous_index_x previous_index_y false).bind fun b1 =>
      (setFocusAt b1 nf.1 nf.2.1 true).bind fun b2 =>
        some { buttons := b2, focus_index_x := nf.1,
               focus_index_y := nf.2.1, status := nf.2.2 }

/-- Folds a sequence of directional events through `change_button_focus`,
propagating failure. -/
def runMoves (s : ClockApp) (ds : List Direction) : Option ClockApp :=
  ds.foldl (fun acc d => acc.bind fun t => change_button_focus t d) (some s)

/-- The calls performed by the body of `MyButton.interact` (main.py lines
55-60) when that body actually runs: nothing if no callback is bound,
`callback()` if no arguments are bound, `callback(*args)` otherwise. -/
def interact_body (b : MyButton) : List Call :=
  match b.callback with
  | none => []
  | some cb =>
      match b.args with
      | none => [((cb, []) : Call)]
      | some a => [((cb, a) : Call)]

/-- Result of evaluating the expression `button.interact()` in Python:
`interact` is declared `async def`, so the call expression only constructs a
coroutine object; since `action_enter` neither awaits it nor schedules it as
a task, the body never executes and the performed calls are none. -/
def unawaited_coroutine (_body : List Call) : List Call := []

/-- Embedding of `ClockApp.action_enter` (main.py lines 192-196): set
`status`, look up the button at the focus coordinates, and if its `in_focus`
flag is set evaluate `button.interact()` — which, being un-awaited, performs
no calls.  Returns the new state and the list of callback invocations
actually performed. -/
def action_enter (s : ClockApp) : Option (ClockApp × List Call) :=
  let s1 : ClockApp := { s with status := "enter button" }
  (pyGet? s1.buttons s1.focus_index_x).bind fun col =>
    (pyGet? col s1.focus_index_y).bind fun button =>
      if button.in_focus then
        some (s1, unawaited_coroutine (interact_body button))
      else
        some (s1, [])

/-- The `START` button built in `on_mount` (main.py lines 104-107):
`MyButton(text=START, callback=self.watch_status, args=["top_button"])`. -/
def startButton : MyButton :=
  { text := "START", callback := some "watch_status",
    args := some ["top_button"], in_focus := false }

/-- The `STOP` button built in `on_mount` (main.py line 108):
`MyButton(text=STOP)`. -/
def stopButton : MyButton :=
  { text := "STOP", callback := none, args := none, in_focus := false }

/-- The app state right after `on_mount` (main.py lines 99-111): two columns
of one button each, focus coordinates `(0, 0)`, reactive `status`
initialised to `"--"` (line 94). -/
def initApp : ClockApp :=
  { buttons := [[startButton], [stopButton]],
    focus_index_x := 0, focus_index_y := 0, status := "--" }

/-- A plain button with no callback, used in example grids. -/
def plainButton : MyButton :=
  { text := "b", callback := none, args := none, in_focus := false }

/-- A ragged grid: column 0 has two rows, column 1 has one row.  The data
model allows this shape ("Each column may have a different number of rows"). -/
def raggedApp : ClockApp :=
  { buttons := [[plainButton, plainButton], [plainButton]],
    focus_index_x := 0, focus_index_y := 0, status := "--" }

/-- The state reached from `raggedApp` by one `DOWN` event: focus at
`(0, 1)`, the lower button of column 0 focused. -/
def raggedDownApp : ClockApp :=
  { buttons := [[plainButton, { plainButton with in_focus := true }], [plainButton]],
    focus_index_x := 0, focus_index_y := 1, status := "--" }

/-- A single three-row column, used to exercise repeated `UP`. -/
def tallApp : ClockApp :=
  { buttons := [[plainButton, plainButton, plainButton]],
    focus_index_x := 0, focus_index_y := 2, status := "--" }

/-- The `UP` branch of `change_button_focus` as a function of `y` alone
(main.py lines 142-146). -/
def up_pos (y : Int) : Int := if y ≤ 0 then 0 else y - 1

/-- The app state with the `STOP` button focused (reached from `initApp` by
one `RIGHT` event). -/
def rightFocusApp : ClockApp :=
  { buttons := [[startButton], [{ stopButton with in_focus := true }]],
    focus_index_x := 1, focus_index_y := 0, status := "--" }

/-- The app state with the `START` button focused (reached from
`rightFocusApp` by one `LEFT` event). -/
def leftFocusApp : ClockApp :=
  { buttons := [[{ startButton with in_focus := true }], [stopButton]],
    focus_index_x := 0, focus_index_y := 0, status := "--" }

/-- The button stored at column `i`, row `j` (Nat indices), totalised with
`defaultButton` out of range; used only to state properties. -/
def buttonAt (bs : List (List MyButton)) (i j : Nat) : MyButton :=
  (bs.getD i []).getD j defaultButton

/-- The `in_focus` flag of the button at column `i`, row `j`; `false` out of
range. -/
def flagAt (bs : List (List MyButton)) (i j : Nat) : Bool :=
  (buttonAt bs i j).in_focus

/-- Two grids have the same shape: same number of columns and the same
number of rows in each column. -/
def sameShape (bs bs2 : List (List MyButton)) : Prop :=
  bs2.length = bs.length ∧ ∀ k : Nat, (bs2.getD k []).length = (bs.getD k []).length

/-- Exactly the button at position `(x, y)` has its `in_focus` flag set:
every in-range flag is `true` precisely when its coordinates are `(x, y)`
(out-of-range slots hold no button at all). -/
def onlyFocusedAt (bs : List (List MyButton)) (x y : Int) : Prop :=
  ∀ i : Nat, i < bs.length → ∀ j : Nat, j < (bs.getD i []).length →
    (flagAt bs i j = true ↔ ((i : Int) = x ∧ (j : Int) = y))

instance (bs : List (List MyButton)) (x y : Int) :
    Decidable (onlyFocusedAt bs x y) := by
  unfold onlyFocusedAt; infer_instance

/-- Every column of the grid has exactly `r` rows. -/
def rectangular (bs : List (List MyButton)) (r : Nat) : Prop :=
  ∀ k : Nat, k < bs.length → (bs.getD k []).length = r

instance (bs : List (List MyButton)) (r : Nat) : Decidable (rectangular bs r) := by
  unfold rectangular; infer_instance

/- ### Helper lemmas -/

theorem getD_get? {α : Type} (l : List α) (k : Nat) (d : α) :
    (l.get? k).getD d = l.getD k d := by
  simp [List.getD_eq_getElem?_getD, ← List.get?_eq_getElem?]

theorem getD_of_get? {α : Type} (l : List α) (i : Nat) (a d : α)
    (h : l.get? i = some a) : l.getD i d = a := by
  rw [← getD_get?, h]
  rfl

theorem getD_set_self {α : Type} (l : List α) (i : Nat) (a d : α)
    (h : i < l.length) : (l.set i a).getD i d = a := by
  simp [List.getD_eq_getElem?_getD, List.getElem?_set_eq_of_lt, h]

theorem getD_set_ne {α : Type} (l : List α) (i k : Nat) (a d : α)
    (h : i ≠ k) : (l.set i a).getD k d = l.getD k d := by
  simp [List.getD_eq_getElem?_getD, List.getElem?_set_ne, h]

theorem pyIdx?_of_valid (n : Nat) (i : Int) (h0 : 0 ≤ i) (h1 : i < (n : Int)) :
    pyIdx? n i = some i.toNat := by
  unfold pyIdx?
  rw [if_pos ⟨h0, h1⟩]

theorem pyGet?_of_valid {α : Type} (l : List α) (i : Int) (h0 : 0 ≤ i)
    (h1 : i < (l.length : Int)) : pyGet? l i = l.get? i.toNat := by
  unfold pyGet?
  rw [pyIdx?_of_valid l.length i h0 h1, Option.some_bind]

theorem rowsIn_of_valid (bs : List (List MyButton)) (i : Int) (h0 : 0 ≤ i)
    (h1 : i < (bs.length : Int)) :
    ∃ col, pyGet? bs i = some col ∧ rowsIn bs i = (col.length : Int) := by
  have hlt : i.toNat < bs.length := by omega
  refine ⟨bs.get ⟨i.toNat, hlt⟩, ?_, ?_⟩
  · rw [pyGet?_of_valid bs i h0 h1]
    exact List.get?_eq_get hlt
  · unfold rowsIn
    rw [pyGet?_of_valid bs i h0 h1, List.get?_eq_get hlt]
    rfl

theorem up_pos_iter (n : Nat) : ∀ y : Int, y = (n : Int) → up_pos^[n] y = 0 := by
  induction n with
  | zero => intro y hy; simpa using hy
  | succ k ih =>
      intro y hy
      rw [Function.iterate_succ_apply]
      apply ih
      unfold up_pos
      rw [if_neg (by omega)]
      omega

theorem pyIdx?_nonneg_inv (n : Nat) (i : Int) (k : Nat) (h0 : 0 ≤ i)
    (h : pyIdx? n i = some k) : i = (k : Int) ∧ k < n := by
  unfold pyIdx? at h
  split at h
  · rename_i hc
    injection h with hk
    omega
  · split at h
    · rename_i hc
      omega
    · exact Option.noConfusion h

theorem pyGet?_nonneg_inv {α : Type} (l : List α) (i : Int) (a : α) (h0 : 0 ≤ i)
    (h : pyGet? l i = some a) :
    i < (l.length : Int) ∧ l.get? i.toNat = some a := by
  unfold pyGet? at h
  cases hidx : pyIdx? l.length i with
  | none => rw [hidx] at h; exact Option.noConfusion h
  | some k =>
      rw [hidx, Option.some_bind] at h
      obtain ⟨hik, hkn⟩ := pyIdx?_nonneg_inv l.length i k h0 hidx
      refine ⟨by omega, ?_⟩
      rw [show i.toNat = k by omega]
      exact h

theorem pySet?_of_valid {α : Type} (l : List α) (i : Int) (a : α) (h0 : 0 ≤ i)
    (h1 : i < (l.length : Int)) : pySet? l i a = some (l.set i.toNat a) := by
  unfold pySet?
  rw [pyIdx?_of_valid l.length i h0 h1]
  rfl

theorem pySet?_nonneg_inv {α : Type} (l : List α) (i : Int) (a : α) (l2 : List α)
    (h0 : 0 ≤ i) (h : pySet? l i a = some l2) :
    i < (l.length : Int) ∧ l2 = l.set i.toNat a := by
  unfold pySet? at h
  cases hidx : pyIdx? l.length i with
  | none => rw [hidx] at h; exact Option.noConfusion h
  | some k =>
      rw [hidx] at h
      injection h with hk
      obtain ⟨hik, hkn⟩ := pyIdx?_nonneg_inv l.length i k h0 hidx
      refine ⟨by omega, ?_⟩
      rw [show i.toNat = k by omega]
      exact hk.symm

theorem setFocusAt_inv (bs : List (List MyButton)) (i j : Int) (v : Bool)
    (bs2 : List (List MyButton)) (h0 : 0 ≤ i) (h1 : 0 ≤ j)
    (h : setFocusAt bs i j v = some bs2) :
    i < (bs.length : Int) ∧ j < ((bs.getD i.toNat []).length : Int) ∧
      bs2 = bs.set i.toNat
        ((bs.getD i.toNat []).set j.toNat
          { buttonAt bs i.toNat j.toNat with in_focus := v }) := by
  unfold setFocusAt at h
  cases hcol : pyGet? bs i with
  | none => rw [hcol] at h; exact Option.noConfusion h
  | some col =>
      rw [hcol, Option.some_bind] at h
      obtain ⟨hilt, hget⟩ := pyGet?_nonneg_inv bs i col h0 hcol
      have hcolD : bs.getD i.toNat [] = col := getD_of_get? bs i.toNat col [] hget
      cases hb : pyGet? col j with
      | none => rw [hb] at h; exact Option.noConfusion h
      | some b =>
          rw [hb, Option.some_bind] at h
          obtain ⟨hjlt, hgetb⟩ := pyGet?_nonneg_inv col j b h1 hb
          have hbD : buttonAt bs i.toNat j.toNat = b := by
            unfold buttonAt
            rw [hcolD]
            exact getD_of_get? col j.toNat b defaultButton hgetb
          rw [pySet?_of_valid col j _ h1 hjlt, Option.some_bind] at h
          obtain ⟨-, hbs2⟩ := pySet?_nonneg_inv bs i _ bs2 h0 h
          refine ⟨hilt, by rw [hcolD]; exact hjlt, ?_⟩
          rw [hbs2, hcolD, hbD]

theorem setFocusAt_of_valid (bs : List (List MyButton)) (i j : Int) (v : Bool)
    (h0 : 0 ≤ i) (h1 : i < (bs.length : Int)) (h2 : 0 ≤ j)
    (h3 : j < ((bs.getD i.toNat []).length : Int)) :
    setFocusAt bs i j v =
      some (bs.set i.toNat
        ((bs.getD i.toNat []).set j.toNat
          { buttonAt bs i.toNat j.toNat with in_focus := v })) := by
  unfold setFocusAt
  have hilt : i.toNat < bs.length := by omega
  obtain ⟨col, hget⟩ : ∃ col, bs.get? i.toNat = some col :=
    ⟨bs.get ⟨i.toNat, hilt⟩, List.get?_eq_get hilt⟩
  have hcolD : bs.getD i.toNat [] = col := getD_of_get? bs i.toNat col [] hget
  have hjlt : j.toNat < col.length := by
    rw [hcolD] at h3
    omega
  obtain ⟨b, hgetb⟩ : ∃ b, col.get? j.toNat = some b :=
    ⟨col.get ⟨j.toNat, hjlt⟩, List.get?_eq_get hjlt⟩
  have hbD : buttonAt bs i.toNat j.toNat = b := by
    unfold buttonAt
    rw [hcolD]
    exact getD_of_get? col j.toNat b defaultButton hgetb
  rw [pyGet?_of_valid bs i h0 h1, hget, Option.some_bind,
    pyGet?_of_valid col j h2 (by omega), hgetb, Option.some_bind,
    pySet?_of_valid col j _ h2 (by omega), Option.some_bind,
    pySet?_of_valid bs i _ h0 h1, hcolD, hbD]

theorem buttonAt_update (bs : List (List MyButton)) (iN jN : Nat) (b2 : MyButton)
    (hi : iN < bs.length) (hj : jN < (bs.getD iN []).length) (a b : Nat) :
    buttonAt (bs.set iN ((bs.getD iN []).set jN b2)) a b =
      (if a = iN ∧ b = jN then b2 else buttonAt bs a b) := by
  unfold buttonAt
  by_cases ha : a = iN
  · subst ha
    rw [getD_set_self bs a _ [] hi]
    by_cases hb : b = jN
    · subst hb
      rw [getD_set_self _ b b2 defaultButton hj, if_pos ⟨rfl, rfl⟩]
    · rw [getD_set_ne _ jN b b2 defaultButton (fun hh => hb hh.symm),
        if_neg (fun hh => hb hh.2)]
  · rw [getD_set_ne bs iN a _ [] (fun hh => ha hh.symm),
      if_neg (fun hh => ha hh.1)]

theorem sameShape_update (bs : List (List MyButton)) (iN jN : Nat) (b2 : MyButton)
    (hi : iN < bs.length) :
    sameShape bs (bs.set iN ((bs.getD iN []).set jN b2)) := by
  constructor
  · exact bs.length_set iN _
  · intro k
    by_cases hk : iN = k
    · subst hk
      rw [getD_set_self bs iN _ [] hi]
      exact ((bs.getD iN []).length_set jN b2)
    · rw [getD_set_ne bs iN k _ [] hk]

theorem sameShape_trans (a b c : List (List MyButton))
    (h1 : sameShape a b) (h2 : sameShape b c) : sameShape a c := by
  refine ⟨h2.1.trans h1.1, fun k => (h2.2 k).trans (h1.2 k)⟩

theorem rowsIn_congr (bs bs2 : List (List MyButton)) (hs : sameShape bs bs2)
    (i : Int) : rowsIn bs2 i = rowsIn bs i := by
  unfold rowsIn pyGet?
  rw [hs.1]
  cases hidx : pyIdx? bs.length i with
  | none => rfl
  | some k =>
      simp only [Option.some_bind]
      have h1 : ((bs2.get? k).getD []).length = (bs2.getD k []).length := by
        rw [getD_get?]
      have h2 : ((bs.get? k).getD []).length = (bs.getD k []).length := by
        rw [getD_get?]
      rw [h1, h2, hs.2 k]

theorem change_inv (s : ClockApp) (d : Direction) (s2 : ClockApp)
    (h : change_button_focus s d = some s2) :
    ∃ nx ny st b1,
      new_focus s d = some (nx, ny, st) ∧
      setFocusAt s.buttons s.focus_index_x s.focus_index_y false = some b1 ∧
      setFocusAt b1 nx ny true = some s2.buttons ∧
      s2.focus_index_x = nx ∧ s2.focus_index_y = ny ∧ s2.status = st := by
  unfold change_button_focus at h
  cases hnf : new_focus s d with
  | none => rw [hnf] at h; exact Option.noConfusion h
  | some t =>
      rw [hnf] at h
      simp only [Option.some_bind] at h
      cases hb1 : setFocusAt s.buttons s.focus_index_x s.focus_index_y false with
      | none => rw [hb1] at h; exact Option.noConfusion h
      | some b1 =>
          rw [hb1] at h
          simp only [Option.some_bind] at h
          cases hb2 : setFocusAt b1 t.1 t.2.1 true with
          | none => rw [hb2] at h; exact Option.noConfusion h
          | some b2 =>
              rw [hb2] at h
              simp only [Option.some_bind] at h
              injection h with h2
              refine ⟨t.1, t.2.1, t.2.2, b1, rfl, rfl, ?_, ?_, ?_, ?_⟩
              · rw [← h2]
                exact hb2
              · rw [← h2]
              · rw [← h2]
              · rw [← h2]

theorem rowsIn_of_get (bs : List (List MyButton)) (x : Int) (col : List MyButton)
    (h : pyGet? bs x = some col) : rowsIn bs x = (col.length : Int) := by
  unfold rowsIn
  rw [h]
  rfl

theorem new_focus_nonneg (s : ClockApp) (d : Direction) (nx ny : Int) (st : String)
    (hv : validPos s) (h : new_focus s d = some (nx, ny, st)) :
    0 ≤ nx ∧ 0 ≤ ny := by
  obtain ⟨hx0, hx1, hy0, hy1⟩ := hv
  cases d with
  | up =>
      simp only [new_focus, Option.some.injEq, Prod.mk.injEq] at h
      obtain ⟨h1, h2, -⟩ := h
      refine ⟨by omega, ?_⟩
      split at h2 <;> omega
  | down =>
      simp only [new_focus] at h
      cases hcol : pyGet? s.buttons s.focus_index_x with
      | none => rw [hcol] at h; exact Option.noConfusion h
      | some col =>
          rw [hcol, Option.some_bind] at h
          have hlen : rowsIn s.buttons s.focus_index_x = (col.length : Int) :=
            rowsIn_of_get s.buttons s.focus_index_x col hcol
          injection h with h'
          rw [Prod.mk.injEq, Prod.mk.injEq] at h'
          obtain ⟨h1, h2, -⟩ := h'
          refine ⟨by omega, ?_⟩
          split at h2 <;> omega
  | left =>
      simp only [new_focus, Option.some.injEq, Prod.mk.injEq] at h
      obtain ⟨h1, h2, -⟩ := h
      refine ⟨?_, by omega⟩
      split at h1 <;> omega
  | right =>
      simp only [new_focus, Option.some.injEq, Prod.mk.injEq] at h
      obtain ⟨h1, h2, -⟩ := h
      refine ⟨?_, by omega⟩
      split at h1 <;> omega
  | other txt =>
      simp only [new_focus, Option.some.injEq, Prod.mk.injEq] at h
      obtain ⟨h1, h2, -⟩ := h
      omega

theorem change_flags (s s2 : ClockApp) (d : Direction)
    (hv : validPos s) (h : change_button_focus s d = some s2) :
    ∃ nx ny st,
      new_focus s d = some (nx, ny, st) ∧
      s2.focus_index_x = nx ∧ s2.focus_index_y = ny ∧ s2.status = st ∧
      0 ≤ nx ∧ 0 ≤ ny ∧
      nx.toNat < s.buttons.length ∧
      ny.toNat < (s.buttons.getD nx.toNat []).length ∧
      sameShape s.buttons s2.buttons ∧
      ∀ a b : Nat,
        buttonAt s2.buttons a b =
          (if a = nx.toNat ∧ b = ny.toNat then
            { buttonAt s.buttons nx.toNat ny.toNat with in_focus := true }
           else if a = s.focus_index_x.toNat ∧ b = s.focus_index_y.toNat then
            { buttonAt s.buttons s.focus_index_x.toNat s.focus_index_y.toNat with
                in_focus := false }
           else buttonAt s.buttons a b) := by
  obtain ⟨nx, ny, st, b1, hnf, hb1, hb2, hsx, hsy, hst⟩ := change_inv s d s2 h
  obtain ⟨hnx0, hny0⟩ := new_focus_nonneg s d nx ny st hv hnf
  obtain ⟨hx0, hx1, hy0, hy1⟩ := hv
  obtain ⟨hpi, hpj, hb1eq⟩ := setFocusAt_inv s.buttons _ _ false b1 hx0 hy0 hb1
  obtain ⟨hni, hnj, hb2eq⟩ := setFocusAt_inv b1 nx ny true s2.buttons hnx0 hny0 hb2
  have hsh1 : sameShape s.buttons b1 := by
    rw [hb1eq]
    exact sameShape_update s.buttons s.focus_index_x.toNat s.focus_index_y.toNat _
      (by omega)
  have hsh2 : sameShape b1 s2.buttons := by
    rw [hb2eq]
    exact sameShape_update b1 nx.toNat ny.toNat _ (by omega)
  have hsh : sameShape s.buttons s2.buttons := sameShape_trans _ _ _ hsh1 hsh2
  have hlen1 : b1.length = s.buttons.length := hsh1.1
  have hcol1 : (b1.getD nx.toNat []).length = (s.buttons.getD nx.toNat []).length :=
    hsh1.2 nx.toNat
  have hbt1 : ∀ a b : Nat, buttonAt b1 a b =
      (if a = s.focus_index_x.toNat ∧ b = s.focus_index_y.toNat then
        { buttonAt s.buttons s.focus_index_x.toNat s.focus_index_y.toNat with
            in_focus := false }
       else buttonAt s.buttons a b) := by
    intro a b
    rw [hb1eq]
    exact buttonAt_update s.buttons s.focus_index_x.toNat s.focus_index_y.toNat _
      (by omega) (by omega) a b
  have hbt2 : ∀ a b : Nat, buttonAt s2.buttons a b =
      (if a = nx.toNat ∧ b = ny.toNat then
        { buttonAt b1 nx.toNat ny.toNat with in_focus := true }
       else buttonAt b1 a b) := by
    intro a b
    rw [hb2eq]
    exact buttonAt_update b1 nx.toNat ny.toNat _ (by omega) (by omega) a b
  refine ⟨nx, ny, st, hnf, hsx, hsy, hst, hnx0, hny0, by omega, by omega, hsh, ?_⟩
  intro a b
  rw [hbt2 a b]
  by_cases hnew : a = nx.toNat ∧ b = ny.toNat
  · obtain ⟨ha, hb⟩ := hnew
    subst ha
    subst hb
    rw [if_pos ⟨rfl, rfl⟩, if_pos ⟨rfl, rfl⟩, hbt1 nx.toNat ny.toNat]
    by_cases hprev : nx.toNat = s.focus_index_x.toNat ∧ ny.toNat = s.focus_index_y.toNat
    · obtain ⟨h1, h2⟩ := hprev
      rw [if_pos ⟨h1, h2⟩, ← h1, ← h2]
    · rw [if_neg hprev]
  · rw [if_neg hnew, if_neg hnew, hbt1 a b]

theorem rowsIn_eq_getD (bs : List (List MyButton)) (i : Int) (h0 : 0 ≤ i)
    (h1 : i < (bs.length : Int)) :
    rowsIn bs i = ((bs.getD i.toNat []).length : Int) := by
  obtain ⟨col, hcol, hlen⟩ := rowsIn_of_valid bs i h0 h1
  rw [hlen]
  obtain ⟨-, hget⟩ := pyGet?_nonneg_inv bs i col h0 hcol
  rw [getD_of_get? bs i.toNat col [] hget]

theorem new_focus_status (s : ClockApp) (d : Direction) (nx ny : Int)
    (st : String) (hd : d.isDirectional = true)
    (h : new_focus s d = some (nx, ny, st)) : st = s.status := by
  cases d with
  | other txt => exact Bool.noConfusion hd
  | up =>
      simp only [new_focus, Option.some.injEq, Prod.mk.injEq] at h
      exact h.2.2.symm
  | down =>
      simp only [new_focus] at h
      cases hcol : pyGet? s.buttons s.focus_index_x with
      | none => rw [hcol] at h; exact Option.noConfusion h
      | some col =>
          rw [hcol, Option.some_bind] at h
          injection h with h2
          rw [Prod.mk.injEq, Prod.mk.injEq] at h2
          exact h2.2.2.symm
  | left =>
      simp only [new_focus, Option.some.injEq, Prod.mk.injEq] at h
      exact h.2.2.symm
  | right =>
      simp only [new_focus, Option.some.injEq, Prod.mk.injEq] at h
      exact h.2.2.symm

/- ### Claim theorems -/

/-- C1: for every valid position, `move(RIGHT)` follows the source branch
`x' = x unless x <= columns - 1, in which case x' = columns - 1`; since the
condition holds for every valid column index, `RIGHT` always jumps to the
last column, with `y` (and `status`) unchanged. -/
theorem right_always_last_column (s : ClockApp) (h : validPos s) :
    new_focus s Direction.right =
      some ((s.buttons.length : Int) - 1, s.focus_index_y, s.status) := by
  obtain ⟨hx0, hx1, -, -⟩ := h
  have hle : s.focus_index_x ≤ (s.buttons.length : Int) - 1 := by omega
  simp only [new_focus, if_pos hle]

theorem right_always_last_column_witness :
    validPos initApp ∧
      new_focus initApp Direction.right =
        some ((initApp.buttons.length : Int) - 1, initApp.focus_index_y,
          initApp.status) :=
  ⟨by decide, right_always_last_column initApp (by decide)⟩

/-- C5: for every position (valid or not), `move(LEFT)` computes
`x' = max(x - 1, 0)` and leaves `y` untouched — in particular `y` is not
reclamped to the destination column's row count (`new_focus` never reads
column `x - 1`). -/
theorem left_clamped_decrement_no_reclamp (s : ClockApp) :
    new_focus s Direction.left =
      some (max (s.focus_index_x - 1) 0, s.focus_index_y, s.status) := by
  have hmax : max (s.focus_index_x - 1) 0 =
      (if s.focus_index_x ≤ 0 then 0 else s.focus_index_x - 1) := by
    rcases le_or_lt s.focus_index_x 0 with h | h
    · rw [if_pos h]
      exact max_eq_right (by omega)
    · rw [if_neg (not_le.mpr h)]
      exact max_eq_left (by omega)
  simp only [new_focus]
  rw [hmax]

/-- C6: for every valid position, `move(DOWN)` computes
`y' = min(y + 1, rows_in_column(x) - 1)` and leaves `x` unchanged. -/
theorem down_clamped_increment (s : ClockApp) (h : validPos s) :
    new_focus s Direction.down =
      some (s.focus_index_x,
        min (s.focus_index_y + 1) (rowsIn s.buttons s.focus_index_x - 1),
        s.status) := by
  obtain ⟨hx0, hx1, hy0, hy1⟩ := h
  obtain ⟨col, hcol, hlen⟩ := rowsIn_of_valid s.buttons s.focus_index_x hx0 hx1
  have hmin : min (s.focus_index_y + 1) (rowsIn s.buttons s.focus_index_x - 1) =
      (if s.focus_index_y ≥ (col.length : Int) - 1 then (col.length : Int) - 1
       else s.focus_index_y + 1) := by
    rw [hlen]
    rcases le_or_lt ((col.length : Int) - 1) s.focus_index_y with hc | hc
    · rw [if_pos hc]
      exact min_eq_right (by omega)
    · rw [if_neg (not_le.mpr hc)]
      exact min_eq_left (by omega)
  simp only [new_focus]
  rw [hcol, Option.some_bind, hmin]

theorem down_clamped_increment_witness :
    validPos initApp ∧
      new_focus initApp Direction.down =
        some (initApp.focus_index_x,
          min (initApp.focus_index_y + 1)
            (rowsIn initApp.buttons initApp.focus_index_x - 1),
          initApp.status) :=
  ⟨by decide, down_clamped_increment initApp (by decide)⟩

/-- C7: for every valid position, one `move(UP)` computes
`y' = max(y - 1, 0)` with `x` (and `status`) unchanged; iterating the `UP`
step `y` times drives `y` to `0`, and the step fixes `0`, so further `UP`
events leave the position unchanged. -/
theorem up_step_and_convergence (s : ClockApp) (h : validPos s) :
    new_focus s Direction.up =
        some (s.focus_index_x, up_pos s.focus_index_y, s.status) ∧
      up_pos s.focus_index_y = max (s.focus_index_y - 1) 0 ∧
      up_pos^[s.focus_index_y.toNat] s.focus_index_y = 0 ∧
      up_pos 0 = 0 := by
  obtain ⟨-, -, hy0, -⟩ := h
  refine ⟨rfl, ?_, ?_, rfl⟩
  · unfold up_pos
    split <;> omega
  · exact up_pos_iter s.focus_index_y.toNat s.focus_index_y (by omega)

theorem up_step_and_convergence_witness :
    validPos tallApp ∧
      (new_focus tallApp Direction.up =
          some (tallApp.focus_index_x, up_pos tallApp.focus_index_y,
            tallApp.status) ∧
        up_pos tallApp.focus_index_y = max (tallApp.focus_index_y - 1) 0 ∧
        up_pos^[tallApp.focus_index_y.toNat] tallApp.focus_index_y = 0 ∧
        up_pos 0 = 0) :=
  ⟨by decide, up_step_and_convergence tallApp (by decide)⟩

/-- C4: if exactly the widget at the current focus position is focused and a
`move(direction)` completes, then afterwards exactly the widget at the new
focus position is focused and all others are not — including boundary
self-loops, where the previous and new positions coincide (the flag is
cleared and then set again). -/
theorem move_preserves_unique_focus (s s2 : ClockApp) (d : Direction)
    (hv : validPos s)
    (hof : onlyFocusedAt s.buttons s.focus_index_x s.focus_index_y)
    (h : change_button_focus s d = some s2) :
    onlyFocusedAt s2.buttons s2.focus_index_x s2.focus_index_y := by
  obtain ⟨nx, ny, st, hnf, hsx, hsy, hst, hnx0, hny0, hni, hnj, hsh, hbt⟩ :=
    change_flags s s2 d hv h
  obtain ⟨hx0, hx1, hy0, hy1⟩ := hv
  intro i hi j hj
  rw [hsx, hsy]
  have hi2 : i < s.buttons.length := by
    have := hsh.1
    omega
  have hj2 : j < (s.buttons.getD i []).length := by
    have := hsh.2 i
    omega
  unfold flagAt
  rw [hbt i j]
  by_cases hnew : i = nx.toNat ∧ j = ny.toNat
  · rw [if_pos hnew]
    constructor
    · intro _
      exact ⟨by omega, by omega⟩
    · intro _
      rfl
  · rw [if_neg hnew]
    by_cases hprev : i = s.focus_index_x.toNat ∧ j = s.focus_index_y.toNat
    · rw [if_pos hprev]
      constructor
      · intro hfalse
        exact Bool.noConfusion hfalse
      · rintro ⟨hxi, hyj⟩
        exact absurd ⟨by omega, by omega⟩ hnew
    · rw [if_neg hprev]
      have hiff := hof i hi2 j hj2
      unfold flagAt at hiff
      constructor
      · intro htrue
        obtain ⟨hxi, hyj⟩ := hiff.mp htrue
        exact absurd ⟨by omega, by omega⟩ hprev
      · rintro ⟨hxi, hyj⟩
        exact absurd ⟨by omega, by omega⟩ hnew

theorem move_preserves_unique_focus_witness :
    (validPos rightFocusApp ∧
      onlyFocusedAt rightFocusApp.buttons rightFocusApp.focus_index_x
        rightFocusApp.focus_index_y ∧
      change_button_focus rightFocusApp Direction.left = some leftFocusApp) ∧
    onlyFocusedAt leftFocusApp.buttons leftFocusApp.focus_index_x
      leftFocusApp.focus_index_y :=
  ⟨⟨by decide, by decide, by decide⟩,
    move_preserves_unique_focus rightFocusApp leftFocusApp Direction.left
      (by decide) (by decide) (by decide)⟩

/-- C9: a completed directional event changes only the focus coordinates and
the `in_focus` flags of the previous and the new focus positions: the
`status` string is unchanged, the grid keeps its shape, every widget at any
other position is unchanged, and even at the two touched positions only the
`in_focus` flag can change (text, callback and bound arguments are
untouched everywhere). -/
theorem move_frame_effect (s s2 : ClockApp) (d : Direction)
    (hd : d.isDirectional = true) (hv : validPos s)
    (h : change_button_focus s d = some s2) :
    ∃ nx ny,
      new_focus s d = some (nx, ny, s.status) ∧
      s2.focus_index_x = nx ∧ s2.focus_index_y = ny ∧
      s2.status = s.status ∧
      sameShape s.buttons s2.buttons ∧
      (∀ a b : Nat,
        ¬(a = s.focus_index_x.toNat ∧ b = s.focus_index_y.toNat) →
        ¬(a = nx.toNat ∧ b = ny.toNat) →
        buttonAt s2.buttons a b = buttonAt s.buttons a b) ∧
      (∀ a b : Nat,
        (buttonAt s2.buttons a b).text = (buttonAt s.buttons a b).text ∧
        (buttonAt s2.buttons a b).callback = (buttonAt s.buttons a b).callback ∧
        (buttonAt s2.buttons a b).args = (buttonAt s.buttons a b).args) := by
  obtain ⟨nx, ny, st, hnf, hsx, hsy, hst, hnx0, hny0, hni, hnj, hsh, hbt⟩ :=
    change_flags s s2 d hv h
  have hstat : st = s.status := new_focus_status s d nx ny st hd hnf
  subst hstat
  refine ⟨nx, ny, hnf, hsx, hsy, hst, hsh, ?_, ?_⟩
  · intro a b hprev hnew
    rw [hbt a b, if_neg hnew, if_neg hprev]
  · intro a b
    rw [hbt a b]
    by_cases hnew : a = nx.toNat ∧ b = ny.toNat
    · obtain ⟨ha, hb⟩ := hnew
      subst ha
      subst hb
      rw [if_pos ⟨rfl, rfl⟩]
      exact ⟨rfl, rfl, rfl⟩
    · rw [if_neg hnew]
      by_cases hprev : a = s.focus_index_x.toNat ∧ b = s.focus_index_y.toNat
      · obtain ⟨ha, hb⟩ := hprev
        subst ha
        subst hb
        rw [if_pos ⟨rfl, rfl⟩]
        exact ⟨rfl, rfl, rfl⟩
      · rw [if_neg hprev]
        exact ⟨rfl, rfl, rfl⟩

theorem move_frame_effect_witness :
    (Direction.isDirectional Direction.left = true ∧ validPos rightFocusApp ∧
      change_button_focus rightFocusApp Direction.left = some leftFocusApp) ∧
    (∃ nx ny,
      new_focus rightFocusApp Direction.left = some (nx, ny, rightFocusApp.status) ∧
      leftFocusApp.focus_index_x = nx ∧ leftFocusApp.focus_index_y = ny ∧
      leftFocusApp.status = rightFocusApp.status ∧
      sameShape rightFocusApp.buttons leftFocusApp.buttons ∧
      (∀ a b : Nat,
        ¬(a = rightFocusApp.focus_index_x.toNat ∧
            b = rightFocusApp.focus_index_y.toNat) →
        ¬(a = nx.toNat ∧ b = ny.toNat) →
        buttonAt leftFocusApp.buttons a b = buttonAt rightFocusApp.buttons a b) ∧
      (∀ a b : Nat,
        (buttonAt leftFocusApp.buttons a b).text =
          (buttonAt rightFocusApp.buttons a b).text ∧
        (buttonAt leftFocusApp.buttons a b).callback =
          (buttonAt rightFocusApp.buttons a b).callback ∧
        (buttonAt leftFocusApp.buttons a b).args =
          (buttonAt rightFocusApp.buttons a b).args)) :=
  ⟨⟨by decide, by decide, by decide⟩,
    move_frame_effect rightFocusApp leftFocusApp Direction.left
      (by decide) (by decide) (by decide)⟩

/-- C8: for any argument outside the four `Directions` members, starting
from a valid position in a grid whose column 0 is non-empty,
`change_button_focus` does not fail: it resets the focus position to
`(0, 0)`, sets the `in_focus` flag of the widget at `(0, 0)`, and the widget
at the previous position (when it is not `(0, 0)` itself) ends up with its
flag cleared. -/
theorem malformed_direction_resets (s : ClockApp) (txt : String)
    (hv : validPos s) (h00 : 0 < rowsIn s.buttons 0) :
    ∃ s2, change_button_focus s (Direction.other txt) = some s2 ∧
      s2.focus_index_x = 0 ∧ s2.focus_index_y = 0 ∧
      flagAt s2.buttons 0 0 = true ∧
      (¬(s.focus_index_x.toNat = 0 ∧ s.focus_index_y.toNat = 0) →
        flagAt s2.buttons s.focus_index_x.toNat s.focus_index_y.toNat = false) := by
  obtain ⟨hx0, hx1, hy0, hy1⟩ := hv
  have hjb : s.focus_index_y < ((s.buttons.getD s.focus_index_x.toNat []).length : Int) := by
    rw [← rowsIn_eq_getD s.buttons s.focus_index_x hx0 hx1]
    exact hy1
  have hb1 := setFocusAt_of_valid s.buttons s.focus_index_x s.focus_index_y false
    hx0 hx1 hy0 hjb
  have hsh1 : sameShape s.buttons
      (s.buttons.set s.focus_index_x.toNat
        ((s.buttons.getD s.focus_index_x.toNat []).set s.focus_index_y.toNat
          { buttonAt s.buttons s.focus_index_x.toNat s.focus_index_y.toNat with
              in_focus := false })) :=
    sameShape_update s.buttons s.focus_index_x.toNat s.focus_index_y.toNat _
      (by omega)
  have hlen0 : (0 : Int) <
      ((s.buttons.set s.focus_index_x.toNat
        ((s.buttons.getD s.focus_index_x.toNat []).set s.focus_index_y.toNat
          { buttonAt s.buttons s.focus_index_x.toNat s.focus_index_y.toNat with
              in_focus := false })).length : Int) := by
    have := hsh1.1
    omega
  have hrow0 : (0 : Int) <
      (((s.buttons.set s.focus_index_x.toNat
        ((s.buttons.getD s.focus_index_x.toNat []).set s.focus_index_y.toNat
          { buttonAt s.buttons s.focus_index_x.toNat s.focus_index_y.toNat with
              in_focus := false })).getD (0 : Int).toNat []).length : Int) := by
    have h1 := hsh1.2 0
    have h2 : rowsIn s.buttons 0 = ((s.buttons.getD (0 : Int).toNat []).length : Int) :=
      rowsIn_eq_getD s.buttons 0 (by omega) (by omega)
    rw [show ((0 : Int).toNat) = 0 from rfl] at h2 ⊢
    omega
  have hb2 := setFocusAt_of_valid _ 0 0 true (le_refl 0) hlen0 (le_refl 0) hrow0
  have hex : ∃ s2, change_button_focus s (Direction.other txt) = some s2 := by
    rw [show change_button_focus s (Direction.other txt) =
        ((new_focus s (Direction.other txt)).bind fun nf =>
          (setFocusAt s.buttons s.focus_index_x s.focus_index_y false).bind fun b1 =>
            (setFocusAt b1 nf.1 nf.2.1 true).bind fun b2 =>
              some { buttons := b2, focus_index_x := nf.1,
                     focus_index_y := nf.2.1, status := nf.2.2 }) from rfl,
      show new_focus s (Direction.other txt) =
        some (0, 0, "ERROR: Undefined direction=" ++ txt) from rfl,
      Option.some_bind, hb1, Option.some_bind, hb2, Option.some_bind]
    exact ⟨_, rfl⟩
  obtain ⟨s2, hs2⟩ := hex
  obtain ⟨nx, ny, st, hnf, hsx, hsy, hst, hnx0, hny0, hni, hnj, hsh, hbt⟩ :=
    change_flags s s2 (Direction.other txt) ⟨hx0, hx1, hy0, hy1⟩ hs2
  have hnf0 : new_focus s (Direction.other txt) =
      some (0, 0, "ERROR: Undefined direction=" ++ txt) := rfl
  rw [hnf] at hnf0
  injection hnf0 with h3
  rw [Prod.mk.injEq, Prod.mk.injEq] at h3
  obtain ⟨e1, e2, -⟩ := h3
  subst e1
  subst e2
  refine ⟨s2, hs2, hsx, hsy, ?_, ?_⟩
  · unfold flagAt
    rw [hbt 0 0, if_pos ⟨rfl, rfl⟩]
  · intro hne
    unfold flagAt
    rw [hbt s.focus_index_x.toNat s.focus_index_y.toNat,
      if_neg (show ¬(s.focus_index_x.toNat = (0 : Int).toNat ∧
        s.focus_index_y.toNat = (0 : Int).toNat) from hne),
      if_pos ⟨rfl, rfl⟩]

theorem malformed_direction_resets_witness :
    (validPos rightFocusApp ∧ 0 < rowsIn rightFocusApp.buttons 0) ∧
    (∃ s2, change_button_focus rightFocusApp (Direction.other "None") = some s2 ∧
      s2.focus_index_x = 0 ∧ s2.focus_index_y = 0 ∧
      flagAt s2.buttons 0 0 = true ∧
      (¬(rightFocusApp.focus_index_x.toNat = 0 ∧
          rightFocusApp.focus_index_y.toNat = 0) →
        flagAt s2.buttons rightFocusApp.focus_index_x.toNat
          rightFocusApp.focus_index_y.toNat = false)) :=
  ⟨⟨by decide, by decide⟩,
    malformed_direction_resets rightFocusApp "None" (by decide) (by decide)⟩

theorem runMoves_cons (s : ClockApp) (d : Direction) (ds : List Direction)
    (s1 : ClockApp) (h : change_button_focus s d = some s1) :
    runMoves s (d :: ds) = runMoves s1 ds := by
  unfold runMoves
  have h2 : ((some s).bind fun t => change_button_focus t d) = some s1 := by
    rw [Option.some_bind]
    exact h
  rw [List.foldl_cons, h2]

theorem new_focus_valid_rect (s : ClockApp) (r : Nat) (hrect : rectangular s.buttons r)
    (hv : validPos s) (d : Direction) :
    ∃ nx ny st, new_focus s d = some (nx, ny, st) ∧
      0 ≤ nx ∧ nx < (s.buttons.length : Int) ∧ 0 ≤ ny ∧ ny < (r : Int) := by
  obtain ⟨hx0, hx1, hy0, hy1⟩ := hv
  have hrx : rowsIn s.buttons s.focus_index_x = (r : Int) := by
    have h1 := rowsIn_eq_getD s.buttons s.focus_index_x hx0 hx1
    have h2 := hrect s.focus_index_x.toNat (by omega)
    omega
  cases d with
  | up =>
      refine ⟨s.focus_index_x,
        (if s.focus_index_y ≤ 0 then 0 else s.focus_index_y - 1),
        s.status, rfl, hx0, hx1, ?_, ?_⟩ <;> split <;> omega
  | down =>
      obtain ⟨col, hcol, hlen⟩ := rowsIn_of_valid s.buttons s.focus_index_x hx0 hx1
      have hcr : (col.length : Int) = (r : Int) := by omega
      refine ⟨s.focus_index_x,
        (if s.focus_index_y ≥ (col.length : Int) - 1 then (col.length : Int) - 1
         else s.focus_index_y + 1),
        s.status, ?_, hx0, hx1, ?_, ?_⟩
      · simp only [new_focus]
        rw [hcol, Option.some_bind]
      · split <;> omega
      · split <;> omega
  | left =>
      refine ⟨(if s.focus_index_x ≤ 0 then 0 else s.focus_index_x - 1),
        s.focus_index_y, s.status, rfl, ?_, ?_, hy0, by omega⟩ <;> split <;> omega
  | right =>
      refine ⟨(if s.focus_index_x ≤ (s.buttons.length : Int) - 1
          then (s.buttons.length : Int) - 1 else s.focus_index_x + 1),
        s.focus_index_y, s.status, rfl, ?_, ?_, hy0, by omega⟩ <;> split <;> omega
  | other txt =>
      refine ⟨0, 0, "ERROR: Undefined direction=" ++ txt, rfl,
        le_refl 0, by omega, le_refl 0, by omega⟩

theorem move_valid_rect (s : ClockApp) (r : Nat) (hrect : rectangular s.buttons r)
    (hv : validPos s) (d : Direction) :
    ∃ s2, change_button_focus s d = some s2 ∧ validPos s2 ∧
      rectangular s2.buttons r ∧ s2.buttons.length = s.buttons.length := by
  obtain ⟨nx, ny, st, hnf, hnx0, hnx1, hny0, hny1⟩ := new_focus_valid_rect s r hrect hv d
  obtain ⟨hx0, hx1, hy0, hy1⟩ := hv
  have hjb : s.focus_index_y <
      ((s.buttons.getD s.focus_index_x.toNat []).length : Int) := by
    have h1 := rowsIn_eq_getD s.buttons s.focus_index_x hx0 hx1
    omega
  obtain ⟨b1, hb1⟩ : ∃ b1,
      setFocusAt s.buttons s.focus_index_x s.focus_index_y false = some b1 :=
    ⟨_, setFocusAt_of_valid s.buttons s.focus_index_x s.focus_index_y false
      hx0 hx1 hy0 hjb⟩
  obtain ⟨-, -, hb1eq⟩ := setFocusAt_inv s.buttons _ _ false b1 hx0 hy0 hb1
  have hsh1 : sameShape s.buttons b1 := by
    rw [hb1eq]
    exact sameShape_update s.buttons s.focus_index_x.toNat s.focus_index_y.toNat _
      (by omega)
  have hnb1 : nx < (b1.length : Int) := by
    have := hsh1.1
    omega
  have hnb2 : ny < ((b1.getD nx.toNat []).length : Int) := by
    have e1 := hsh1.2 nx.toNat
    have e2 := hrect nx.toNat (by omega)
    omega
  obtain ⟨b2, hb2⟩ : ∃ b2, setFocusAt b1 nx ny true = some b2 :=
    ⟨_, setFocusAt_of_valid b1 nx ny true hnx0 hnb1 hny0 hnb2⟩
  have hex : ∃ s2, change_button_focus s d = some s2 := by
    rw [show change_button_focus s d =
        ((new_focus s d).bind fun nf =>
          (setFocusAt s.buttons s.focus_index_x s.focus_index_y false).bind fun c1 =>
            (setFocusAt c1 nf.1 nf.2.1 true).bind fun c2 =>
              some { buttons := c2, focus_index_x := nf.1,
                     focus_index_y := nf.2.1, status := nf.2.2 }) from rfl,
      hnf]
    simp only [Option.some_bind]
    rw [hb1]
    simp only [Option.some_bind]
    rw [hb2]
    simp only [Option.some_bind]
    exact ⟨_, rfl⟩
  obtain ⟨s2, hs2⟩ := hex
  obtain ⟨nx2, ny2, st2, hnf2, hsx, hsy, hst, -, -, -, -, hsh, -⟩ :=
    change_flags s s2 d ⟨hx0, hx1, hy0, hy1⟩ hs2
  rw [hnf] at hnf2
  injection hnf2 with h3
  rw [Prod.mk.injEq, Prod.mk.injEq] at h3
  obtain ⟨e1, e2, -⟩ := h3
  subst e1
  subst e2
  have hlen : s2.buttons.length = s.buttons.length := hsh.1
  have hrect2 : rectangular s2.buttons r := by
    intro k hk
    rw [hsh.2 k]
    exact hrect k (by omega)
  refine ⟨s2, hs2, ?_, hrect2, hlen⟩
  refine ⟨by omega, by omega, by omega, ?_⟩
  rw [hsx, hsy]
  have hcongr := rowsIn_congr s.buttons s2.buttons hsh nx
  have h1 := rowsIn_eq_getD s.buttons nx (by omega) (by omega)
  have h2 := hrect nx.toNat (by omega)
  omega

theorem runMoves_valid_rect (r : Nat) (ds : List Direction) :
    ∀ s : ClockApp, validPos s → rectangular s.buttons r →
      ∃ s2, runMoves s ds = some s2 ∧ validPos s2 ∧ rectangular s2.buttons r ∧
        s2.buttons.length = s.buttons.length := by
  induction ds with
  | nil =>
      intro s hv hrect
      exact ⟨s, rfl, hv, hrect, rfl⟩
  | cons d ds ih =>
      intro s hv hrect
      obtain ⟨s1, h1, hv1, hrect1, hlen1⟩ := move_valid_rect s r hrect hv d
      obtain ⟨s2, h2, hv2, hrect2, hlen2⟩ := ih s1 hv1 hrect1
      refine ⟨s2, ?_, hv2, hrect2, by omega⟩
      rw [runMoves_cons s d ds s1 h1]
      exact h2

/-- C2 counterexample: on the ragged grid with two rows in column 0 and one
row in column 1, the sequence `DOWN`, `RIGHT` from `(0, 0)` first reaches
the valid position `(0, 1)`, but the `RIGHT` step then computes the new
position `(1, 1)`, which violates `0 <= y < rows_in_column(1) = 1`; the flag
update at that position raises `IndexError` (the run returns `none`), so the
focus position does not always stay valid on ragged grids. -/
theorem ragged_grid_breaks_validity :
    validPos raggedApp ∧
    runMoves raggedApp [Direction.down] = some raggedDownApp ∧
    validPos raggedDownApp ∧
    new_focus raggedDownApp Direction.right = some (1, 1, raggedDownApp.status) ∧
    rowsIn raggedDownApp.buttons 1 = 1 ∧
    runMoves raggedApp [Direction.down, Direction.right] = none := by
  refine ⟨by decide, by decide, by decide, by decide, by decide, by decide⟩

/-- C2 amended: the focus-position invariant `0 <= x < columns`,
`0 <= y < rows_in_column(x)` does hold after every sequence of moves from
`(0, 0)` provided the grid is rectangular — every column has the same
positive number of rows (as in the app's actual 2x1 layout); for genuinely
ragged grids the invariant can fail on horizontal moves. -/
theorem rectangular_grid_preserves_validity (s : ClockApp) (r : Nat)
    (hc : 0 < s.buttons.length) (hrect : rectangular s.buttons r) (hr : 0 < r)
    (hx : s.focus_index_x = 0) (hy : s.focus_index_y = 0)
    (ds : List Direction) :
    ∃ s2, runMoves s ds = some s2 ∧ validPos s2 := by
  have hv : validPos s := by
    unfold validPos
    rw [hx, hy]
    refine ⟨le_refl 0, by omega, le_refl 0, ?_⟩
    have h1 := rowsIn_eq_getD s.buttons 0 (le_refl 0) (by omega)
    rw [show ((0 : Int).toNat) = 0 from rfl] at h1
    have h2 := hrect 0 (by omega)
    omega
  obtain ⟨s2, h2, hv2, -, -⟩ := runMoves_valid_rect r ds s hv hrect
  exact ⟨s2, h2, hv2⟩

theorem rectangular_grid_preserves_validity_witness :
    (0 < initApp.buttons.length ∧ rectangular initApp.buttons 1 ∧ 0 < 1 ∧
      initApp.focus_index_x = 0 ∧ initApp.focus_index_y = 0) ∧
    (∃ s2, runMoves initApp [Direction.down, Direction.right, Direction.left] =
        some s2 ∧ validPos s2) :=
  ⟨⟨by decide, by decide, by decide, by decide, by decide⟩,
    rectangular_grid_preserves_validity initApp 1 (by decide) (by decide)
      (by decide) (by decide) (by decide)
      [Direction.down, Direction.right, Direction.left]⟩

theorem up_down_fixed (s : ClockApp) (hv : validPos s)
    (hre : rectangular s.buttons 1) :
    s.focus_index_y = 0 ∧
    (∃ su, change_button_focus s Direction.up = some su ∧
      su.focus_index_x = s.focus_index_x ∧
      su.focus_index_y = s.focus_index_y) ∧
    (∃ sd, change_button_focus s Direction.down = some sd ∧
      sd.focus_index_x = s.focus_index_x ∧
      sd.focus_index_y = s.focus_index_y) := by
  obtain ⟨hx0, hx1, hy0, hy1⟩ := hv
  have hrx : rowsIn s.buttons s.focus_index_x = 1 := by
    have h1 := rowsIn_eq_getD s.buttons s.focus_index_x hx0 hx1
    have h2 := hre s.focus_index_x.toNat (by omega)
    omega
  have hy : s.focus_index_y = 0 := by omega
  refine ⟨hy, ?_, ?_⟩
  · obtain ⟨su, hsu, -, -, -⟩ :=
      move_valid_rect s 1 hre ⟨hx0, hx1, hy0, hy1⟩ Direction.up
    obtain ⟨nx, ny, st, hnf, hsx, hsy, -, -, -, -, -, -, -⟩ :=
      change_flags s su Direction.up ⟨hx0, hx1, hy0, hy1⟩ hsu
    have hup : new_focus s Direction.up =
        some (s.focus_index_x,
          (if s.focus_index_y ≤ 0 then 0 else s.focus_index_y - 1),
          s.status) := rfl
    rw [hnf] at hup
    injection hup with h3
    rw [Prod.mk.injEq, Prod.mk.injEq] at h3
    obtain ⟨e1, e2, -⟩ := h3
    refine ⟨su, hsu, by omega, ?_⟩
    rw [hy] at e2
    norm_num at e2
    omega
  · obtain ⟨sd, hsd, -, -, -⟩ :=
      move_valid_rect s 1 hre ⟨hx0, hx1, hy0, hy1⟩ Direction.down
    obtain ⟨nx, ny, st, hnf, hsx, hsy, -, -, -, -, -, -, -⟩ :=
      change_flags s sd Direction.down ⟨hx0, hx1, hy0, hy1⟩ hsd
    obtain ⟨col, hcol, hlen⟩ := rowsIn_of_valid s.buttons s.focus_index_x hx0 hx1
    have hdown : new_focus s Direction.down =
        some (s.focus_index_x,
          (if s.focus_index_y ≥ (col.length : Int) - 1 then (col.length : Int) - 1
           else s.focus_index_y + 1),
          s.status) := by
      simp only [new_focus]
      rw [hcol, Option.some_bind]
    rw [hnf] at hdown
    injection hdown with h3
    rw [Prod.mk.injEq, Prod.mk.injEq] at h3
    obtain ⟨e1, e2, -⟩ := h3
    refine ⟨sd, hsd, by omega, ?_⟩
    have hcl : (col.length : Int) = 1 := by omega
    rw [hcl, hy] at e2
    norm_num at e2
    omega

/-- C10: in the app as built by `on_mount` — two columns with one button
each — every sequence of directional events (malformed ones included)
completes, leaves the focus row index at `0`, and from any reachable state a
further `UP` or `DOWN` event does not change the focus position. -/
theorem app_grid_fixes_row_zero (ds : List Direction) :
    ∃ s2, runMoves initApp ds = some s2 ∧ s2.focus_index_y = 0 ∧
      (∃ su, change_button_focus s2 Direction.up = some su ∧
        su.focus_index_x = s2.focus_index_x ∧
        su.focus_index_y = s2.focus_index_y) ∧
      (∃ sd, change_button_focus s2 Direction.down = some sd ∧
        sd.focus_index_x = s2.focus_index_x ∧
        sd.focus_index_y = s2.focus_index_y) := by
  obtain ⟨s2, h2, hv2, hrect2, -⟩ :=
    runMoves_valid_rect 1 ds initApp (by decide) (by decide)
  obtain ⟨hy2, hup, hdown⟩ := up_down_fixed s2 hv2 hrect2
  exact ⟨s2, h2, hy2, hup, hdown⟩

/-- C3 (code bug, evaluated at the failing input): in the state with the
`START` button focused at `(0, 0)` — its bound action is `watch_status` with
arguments `["top_button"]` — the body of `interact` would perform exactly
that one call with exactly those arguments, but `action_enter` performs no
call at all: `button.interact()` is an un-awaited coroutine construction, so
activation never invokes the bound action. -/
theorem activation_never_invokes_callback :
    (buttonAt leftFocusApp.buttons 0 0).in_focus = true ∧
    (buttonAt leftFocusApp.buttons 0 0).callback = some "watch_status" ∧
    (buttonAt leftFocusApp.buttons 0 0).args = some ["top_button"] ∧
    interact_body (buttonAt leftFocusApp.buttons 0 0) =
      [(("watch_status", ["top_button"]) : Call)] ∧
    action_enter leftFocusApp =
      some ({ leftFocusApp with status := "enter button" }, ([] : List Call)) := by
  refine ⟨by decide, by decide, by decide, by decide, by decide⟩

end MeetingCostClock
